import Mathlib

/-!
Shallow embedding of the multi-provider course aggregator
(`course_provider_integrations_v7.py`) and proofs about its behaviour.

Python's dynamically typed values are embedded as the inductive `Value`;
course records (Python dicts produced by the adapters) are association
lists `Course`; fallible Python code (code that can raise) is embedded in
`Option` or `Except PyExc`; numbers are embedded as rationals, which is
exact for every value the program manipulates apart from float overflow,
which no property here touches.
-/

namespace CourseAgg

/-- A Python value as manipulated by the aggregator: numbers (int and
float are merged into one exact rational constructor), booleans, strings,
`None`, lists and dicts with string keys. -/
inductive Value where
  | num (q : ℚ)
  | bool (b : Bool)
  | str (s : String)
  | null
  | list (items : List Value)
  | dict (entries : List (String × Value))

/-- Python exceptions that the embedded code can raise. -/
inductive PyExc where
  | rateLimitError (msg : String)
  | apiError (msg : String)
  | connectionError (msg : String)
  | clientError (msg : String)
  | jsonDecodeError
  | keyError (k : String)
  | typeError
  | indexError
deriving DecidableEq

/-- Python `==` on embedded values (structural; numeric/bool cross-type
equalities such as `True == 1` are not identified, which no filter in the
repository relies on). -/
def Value.beq : Value → Value → Bool
  | .num a, .num b => a == b
  | .bool a, .bool b => a == b
  | .str a, .str b => a == b
  | .null, .null => true
  | .list a, .list b => beqList a b
  | .dict a, .dict b => beqDict a b
  | _, _ => false
where
  beqList : List Value → List Value → Bool
    | [], [] => true
    | x :: xs, y :: ys => Value.beq x y && beqList xs ys
    | _, _ => false
  beqDict : List (String × Value) → List (String × Value) → Bool
    | [], [] => true
    | (k₁, v₁) :: xs, (k₂, v₂) :: ys => k₁ == k₂ && Value.beq v₁ v₂ && beqDict xs ys
    | _, _ => false

/-- A normalized course record: the Python dict built by the adapters,
as an association list (the adapters never produce duplicate keys). -/
abbrev Course := List (String × Value)

/-- `course.get(k)`: first binding of `k`, if any. -/
def courseGet (c : Course) (k : String) : Option Value :=
  match c.find? (fun p => p.1 == k) with
  | some p => some p.2
  | none => none

/-- Python truthiness `bool(v)`. -/
def truthy : Value → Bool
  | .num q => q != 0
  | .bool b => b
  | .str s => !s.isEmpty
  | .null => false
  | .list items => !items.isEmpty
  | .dict entries => !entries.isEmpty

/-- Value of a digit string, as Python `float` parses an all-digit string. -/
def digitsToNat (ds : List Char) : Nat :=
  ds.foldl (fun a c => a * 10 + (c.toNat - 48)) 0

/-- `CourseAggregator._get_numeric_price`: a number (Python lets `bool`
pass the `isinstance(price, (int, float))` test) is converted with
`float`; a string has every digit character concatenated and the result
parsed (`float(''.join(filter(str.isdigit, price)))`), with `ValueError`
— the empty digit string — caught to `0.0`; anything else is `0.0`.
The digit test is the ASCII one. -/
def getNumericPrice : Value → ℚ
  | .num q => q
  | .bool b => if b then 1 else 0
  | .str s =>
      let ds := s.data.filter Char.isDigit
      if ds.isEmpty then 0 else (digitsToNat ds : ℚ)
  | _ => 0

/-- Strip leading and trailing whitespace from a character list (the
whitespace stripping Python's numeric conversions perform). -/
def trimChars (cs : List Char) : List Char :=
  ((cs.dropWhile Char.isWhitespace).reverse.dropWhile Char.isWhitespace).reverse

/-- Python `float(s)` on a string: optional sign, then digits with an
optional decimal point (exponents, infinities and surrounding whitespace
variants beyond stripping are not modelled; no property here feeds them). -/
def pyParseFloat (s : String) : Option ℚ :=
  let t := trimChars s.data
  let (neg, t₁) :=
    match t with
    | '-' :: rest => (true, rest)
    | '+' :: rest => (false, rest)
    | _ => (false, t)
  let intPart := t₁.takeWhile Char.isDigit
  let rest := t₁.dropWhile Char.isDigit
  let signed : ℚ → ℚ := fun q => if neg then -q else q
  match rest with
  | [] => if intPart.isEmpty then none else some (signed (digitsToNat intPart : ℚ))
  | '.' :: frac =>
      if frac.all Char.isDigit && !(intPart.isEmpty && frac.isEmpty) then
        some (signed ((digitsToNat intPart : ℚ) + (digitsToNat frac : ℚ) / (10 : ℚ) ^ frac.length))
      else none
  | _ => none

/-- Python `int(s)` on a string: optional sign then digits only. -/
def pyParseInt (s : String) : Option Int :=
  let t := trimChars s.data
  let (neg, t₁) :=
    match t with
    | '-' :: rest => (true, rest)
    | '+' :: rest => (false, rest)
    | _ => (false, t)
  if t₁.isEmpty || !t₁.all Char.isDigit then none
  else some (if neg then -(digitsToNat t₁ : Int) else (digitsToNat t₁ : Int))

/-- Python `float(v)`: `none` is a raised `TypeError`/`ValueError`. -/
def pyFloat : Value → Option ℚ
  | .num q => some q
  | .bool b => some (if b then 1 else 0)
  | .str s => pyParseFloat s
  | _ => none

/-- Python `int(v)` (`int` of a float truncates toward zero). -/
def pyInt : Value → Option Int
  | .num q => some (q.num.tdiv (q.den : Int))
  | .bool b => some (if b then 1 else 0)
  | .str s => pyParseInt s
  | _ => none

/-- One equality filter test: `course.get(key) == value` (an absent key
reads as `None`). -/
def matchesFilter (c : Course) (kv : String × Value) : Bool :=
  Value.beq ((courseGet c kv.1).getD .null) kv.2

/-- The price-range test of `_apply_filters`:
`self._get_numeric_price(course.get('price', 0)) >= min_price and ... <= max_price`. -/
def priceInRange (c : Course) (mn mx : ℚ) : Bool :=
  decide (mn ≤ getNumericPrice ((courseGet c "price").getD (.num 0))) &&
  decide (getNumericPrice ((courseGet c "price").getD (.num 0)) ≤ mx)

/-- Truthiness of the `filters` argument (`None` and the empty dict are
falsy). -/
def filtersTruthy : Option (List (String × Value)) → Bool
  | none => false
  | some fl => !fl.isEmpty

/-- The `if filters:` loop of `_apply_filters`: one `List.filter` per
`(key, value)` pair, in insertion order. -/
def applyEqFilters (fl : List (String × Value)) (courses : List Course) : List Course :=
  fl.foldl (fun acc kv => acc.filter (fun c => matchesFilter c kv)) courses

/-- The `if price_range:` block of `_apply_filters`. -/
def applyPriceRange (priceRange : Option (ℚ × ℚ)) (courses : List Course) : List Course :=
  match priceRange with
  | none => courses
  | some (mn, mx) => courses.filter (fun c => priceInRange c mn mx)

/-- `CourseAggregator._apply_filters`: early return when both arguments
are falsy; otherwise each `(key, value)` pair keeps the courses whose
field equals the value, then the optional price range keeps the courses
whose derived numeric price lies in `[min, max]`. -/
def applyFilters (courses : List Course) (filters : Option (List (String × Value)))
    (priceRange : Option (ℚ × ℚ)) : List Course :=
  if filtersTruthy filters = false ∧ priceRange = none then courses
  else
    applyPriceRange priceRange
      (match filters with
       | none => courses
       | some fl => applyEqFilters fl courses)

/-- The `get_sort_key` closure of `_sort_courses`; `none` is a raised
conversion error (`float`/`int` on a non-numeric value). -/
def getSortKey (sortBy : String) (c : Course) : Option ℚ :=
  if sortBy == "price" then
    some (getNumericPrice ((courseGet c "price").getD (.num 0)))
  else if sortBy == "rating" then
    pyFloat ((courseGet c "rating").getD (.num 0))
  else if sortBy == "reviews" then
    (pyInt ((courseGet c "reviews").getD (.num 0))).map (fun z => (z : ℚ))
  else
    some 0

/-- The sort key that `_sort_courses` uses once every key computation has
succeeded. -/
def keyOf (sortBy : String) (c : Course) : ℚ :=
  (getSortKey sortBy c).getD 0

/-- Left-to-right traversal in `Option`, stopping at the first failure
(the first raised exception). -/
def traverseOpt (f : α → Option β) : List α → Option (List β)
  | [] => some []
  | a :: as =>
    match f a with
    | none => none
    | some b =>
      match traverseOpt f as with
      | none => none
      | some bs => some (b :: bs)

/-- Insert one element into a descending-sorted list, after every element
of strictly larger key and before the first element of smaller-or-equal
key: the insertion step of a stable descending sort. -/
def insDesc (key : α → ℚ) (x : α) : List α → List α
  | [] => [x]
  | y :: ys => if key y ≤ key x then x :: y :: ys else y :: insDesc key x ys

/-- Stable descending insertion sort: the behaviour of Python
`sorted(l, key=key, reverse=True)`. -/
def insSortDesc (key : α → ℚ) : List α → List α
  | [] => []
  | x :: xs => insDesc key x (insSortDesc key xs)

/-- `CourseAggregator._sort_courses`: a falsy `sort_by` (absent or empty)
returns the list unchanged; otherwise `sorted` evaluates the key of every
course (raising if any conversion fails, hence the traversal) and sorts
stably in descending key order. -/
def sortCourses (courses : List Course) (sortBy : Option String) : Option (List Course) :=
  match sortBy with
  | none => some courses
  | some sb =>
    if sb.isEmpty then some courses
    else
      match traverseOpt (getSortKey sb) courses with
      | none => none
      | some _ => some (insSortDesc (keyOf sb) courses)

/-- One per-provider slice of the aggregated response. -/
structure Bucket where
  error : Option String
  courses : List Course

/-- How `search_all_providers` turns one gathered outcome into a bucket:
an exception becomes `{'error': str(result), 'courses': []}`, a course
list becomes `{'error': None, 'courses': result}`. -/
def mkBucket : Except String (List Course) → Bucket
  | .error e => { error := some e, courses := [] }
  | .ok cs => { error := none, courses := cs }

/-- The post-fetch loop body of `search_all_providers`: buckets whose
`error` is not `None` pass through untouched; the others run
`_apply_filters` then `_sort_courses` (whose failure — a raised
conversion error — aborts the whole call). -/
def processBucket (sortBy : Option String) (filters : Option (List (String × Value)))
    (priceRange : Option (ℚ × ℚ)) (b : Bucket) : Option Bucket :=
  match b.error with
  | some _ => some b
  | none =>
    match sortCourses (applyFilters b.courses filters priceRange) sortBy with
    | none => none
    | some cs => some { error := none, courses := cs }

/-- `CourseAggregator.search_all_providers`, with the network factored
out: the three gathered per-provider outcomes are parameters. The
function performs no validation of `skills` or `limit_per_provider` —
mirroring the source, those parameters are never inspected after
dispatch. `none` is an exception escaping the call. -/
def searchAllProviders (skills : List String) (limitPerProvider : Int)
    (sortBy : Option String) (filters : Option (List (String × Value)))
    (priceRange : Option (ℚ × ℚ))
    (courseraResult udemyResult edxResult : Except String (List Course)) :
    Option (List (String × Bucket)) :=
  traverseOpt
    (fun nb => (processBucket sortBy filters priceRange nb.2).map (fun b => (nb.1, b)))
    [("coursera", mkBucket courseraResult),
     ("udemy", mkBucket udemyResult),
     ("edx", mkBucket edxResult)]

/-- Python `str(v)` as used inside the adapters' f-strings. Only string
values are rendered exactly; the numeric rendering is approximate (the
rendered text feeds URL and price strings whose content no property of
this development inspects). -/
def pyStr : Value → String
  | .str s => s
  | .num q => toString q
  | .bool b => if b then "True" else "False"
  | .null => "None"
  | .list _ => "<list>"
  | .dict _ => "<dict>"

/-- Python `v[0]`: head of a list, first character of a string,
`IndexError` when empty, `TypeError` otherwise (a dict would raise
`KeyError(0)`, folded into `typeError` here; no adapter default hits it). -/
def pyIndex0 : Value → Except PyExc Value
  | .list (x :: _) => .ok x
  | .list [] => .error .indexError
  | .str s =>
    match s.data with
    | c :: _ => .ok (.str (String.mk [c]))
    | [] => .error .indexError
  | _ => .error .typeError

/-- An upstream record must be a dict to be subscripted (`TypeError`
otherwise). -/
def asDict : Value → Except PyExc (List (String × Value))
  | .dict entries => .ok entries
  | _ => .error .typeError

/-- Python `d[k]` on a record: `KeyError` when absent. -/
def getItem (d : List (String × Value)) (k : String) : Except PyExc Value :=
  match courseGet d k with
  | some v => .ok v
  | none => .error (.keyError k)

/-- Left-to-right traversal in `Except`, stopping at the first raised
exception. -/
def traverseEx (f : α → Except ε β) : List α → Except ε (List β)
  | [] => .ok []
  | a :: as =>
    match f a with
    | .error e => .error e
    | .ok b =>
      match traverseEx f as with
      | .error e => .error e
      | .ok bs => .ok (b :: bs)

/-- One record of `CourseraAPI._process_coursera_results`: required
fields by direct subscript (`course['name']`, `['description']`,
`['slug']`, `['id']`), optional fields via `.get` with the documented
defaults, evaluated in the order of the Python dict literal. -/
def processCourseraRecord (v : Value) : Except PyExc Course :=
  match asDict v with
  | .error e => .error e
  | .ok course =>
    match getItem course "name" with
    | .error e => .error e
    | .ok name =>
      match getItem course "description" with
      | .error e => .error e
      | .ok description =>
        match getItem course "slug" with
        | .error e => .error e
        | .ok slug =>
          match pyIndex0 ((courseGet course "primaryLanguages").getD (.list [.str "English"])) with
          | .error e => .error e
          | .ok language =>
            match getItem course "id" with
            | .error e => .error e
            | .ok cid =>
              .ok [("provider", .str "Coursera"),
                   ("title", name),
                   ("description", description),
                   ("url", .str ("https://www.coursera.org/learn/" ++ pyStr slug)),
                   ("image_url", (courseGet course "partnerLogo").getD .null),
                   ("duration", (courseGet course "workload").getD (.str "Flexible")),
                   ("language", language),
                   ("certificate", .bool (truthy ((courseGet course "certificates").getD .null))),
                   ("start_date", (courseGet course "startDate").getD (.str "Self-paced")),
                   ("price", .str "Free to audit, Certificate available"),
                   ("provider_id", cid)]

/-- `CourseraAPI._process_coursera_results` over the upstream list. -/
def processCourseraResults (items : List Value) : Except PyExc (List Course) :=
  traverseEx processCourseraRecord items

/-- One record of `UdemyAPI._process_udemy_results`: every field is a
direct subscript. -/
def processUdemyRecord (v : Value) : Except PyExc Course :=
  match asDict v with
  | .error e => .error e
  | .ok course =>
    match getItem course "title" with
    | .error e => .error e
    | .ok title =>
      match getItem course "headline" with
      | .error e => .error e
      | .ok headline =>
        match getItem course "url" with
        | .error e => .error e
        | .ok url =>
          match getItem course "image_480x270" with
          | .error e => .error e
          | .ok image =>
            match getItem course "price" with
            | .error e => .error e
            | .ok price =>
              match getItem course "avg_rating" with
              | .error e => .error e
              | .ok rating =>
                match getItem course "num_reviews" with
                | .error e => .error e
                | .ok reviews =>
                  match getItem course "id" with
                  | .error e => .error e
                  | .ok cid =>
                    .ok [("provider", .str "Udemy"),
                         ("title", title),
                         ("description", headline),
                         ("url", url),
                         ("image_url", image),
                         ("price", .str ("$" ++ pyStr price)),
                         ("rating", rating),
                         ("reviews", reviews),
                         ("provider_id", cid)]

/-- `UdemyAPI._process_udemy_results` over the upstream list. -/
def processUdemyResults (items : List Value) : Except PyExc (List Course) :=
  traverseEx processUdemyRecord items

/-- One record of `EdXAPI._process_edx_results`: `title`,
`short_description`, `marketing_url`, `image_url` and `id` by direct
subscript, the rest via `.get` with defaults. -/
def processEdxRecord (v : Value) : Except PyExc Course :=
  match asDict v with
  | .error e => .error e
  | .ok course =>
    match getItem course "title" with
    | .error e => .error e
    | .ok title =>
      match getItem course "short_description" with
      | .error e => .error e
      | .ok description =>
        match getItem course "marketing_url" with
        | .error e => .error e
        | .ok url =>
          match getItem course "image_url" with
          | .error e => .error e
          | .ok image =>
            match getItem course "id" with
            | .error e => .error e
            | .ok cid =>
              .ok [("provider", .str "EdX"),
                   ("title", title),
                   ("description", description),
                   ("url", url),
                   ("image_url", image),
                   ("price", (courseGet course "price").getD (.str "Free to audit, Certificate available")),
                   ("start_date", (courseGet course "start").getD (.str "Self-paced")),
                   ("pacing", (courseGet course "pacing_type").getD (.str "Self-paced")),
                   ("provider_id", cid)]

/-- `EdXAPI._process_edx_results` over the upstream list. -/
def processEdxResults (items : List Value) : Except PyExc (List Course) :=
  traverseEx processEdxRecord items

/-- What one HTTP exchange produced: a response with a status code and a
decoded JSON body (`none` when the body is undecodable), or a transport
failure (`aiohttp.ClientError`). -/
inductive HttpOutcome where
  | response (status : Nat) (body : Option Value)
  | networkFailure (msg : String)

/-- `CourseProviderBase._make_request`: status 429 raises
`RateLimitError('Rate limit exceeded')`, any other status `>= 400` raises
`APIError(...)`, a transport failure raises
`ConnectionError('Connection error: ...')`, an undecodable body of a
success response raises `APIError('Invalid JSON response')`. -/
def makeRequest : HttpOutcome → Except PyExc Value
  | .networkFailure m => .error (.connectionError ("Connection error: " ++ m))
  | .response status body =>
    if status == 429 then .error (.rateLimitError "Rate limit exceeded")
    else if status ≥ 400 then
      .error (.apiError ("API request failed with status " ++ toString status))
    else
      match body with
      | some v => .ok v
      | none => .error (.apiError "Invalid JSON response")

/-- Python `for course in v` feeding a per-record processor: a list is
iterated; an empty string or dict iterates zero times; anything else
raises (`TypeError` from iteration or from subscripting the element). -/
def iterRecords (proc : Value → Except PyExc Course) : Value → Except PyExc (List Course)
  | .list items => traverseEx proc items
  | .str s => if s.isEmpty then .ok [] else .error .typeError
  | .dict entries => if entries.isEmpty then .ok [] else .error .typeError
  | _ => .error .typeError

/-- `CourseraAPI.search_courses` with the network factored out: the
method calls `self.session.get` directly — not `_make_request` — so the
response status is never examined; the body is decoded
(`await response.json()`, raising on an undecodable body), subscripted at
`'elements'`, and processed. A transport failure propagates as the raw
client error. -/
def courseraSearchCourses (skills : List String) (limit : Int) (resp : HttpOutcome) :
    Except PyExc (List Course) :=
  match resp with
  | .networkFailure m => .error (.clientError m)
  | .response _ body =>
    match body with
    | none => .error .jsonDecodeError
    | some data =>
      match asDict data with
      | .error e => .error e
      | .ok entries =>
        match getItem entries "elements" with
        | .error e => .error e
        | .ok v => iterRecords processCourseraRecord v

/-- `UdemyAPI.search_courses`: same shape, subscripting `'results'`. -/
def udemySearchCourses (skills : List String) (limit : Int) (resp : HttpOutcome) :
    Except PyExc (List Course) :=
  match resp with
  | .networkFailure m => .error (.clientError m)
  | .response _ body =>
    match body with
    | none => .error .jsonDecodeError
    | some data =>
      match asDict data with
      | .error e => .error e
      | .ok entries =>
        match getItem entries "results" with
        | .error e => .error e
        | .ok v => iterRecords processUdemyRecord v

/-- `EdXAPI.search_courses`: same shape, subscripting `'results'`. -/
def edxSearchCourses (skills : List String) (limit : Int) (resp : HttpOutcome) :
    Except PyExc (List Course) :=
  match resp with
  | .networkFailure m => .error (.clientError m)
  | .response _ body =>
    match body with
    | none => .error .jsonDecodeError
    | some data =>
      match asDict data with
      | .error e => .error e
      | .ok entries =>
        match getItem entries "results" with
        | .error e => .error e
        | .ok v => iterRecords processEdxRecord v

/-- Sample courses with ratings 3, 5, 5, 1, for concrete instantiations. -/
def sampleA : Course := [("id", Value.str "a"), ("rating", Value.num 3)]

/-- Second sample course (rating 5, earlier of the two 5-rated ones). -/
def sampleB : Course := [("id", Value.str "b"), ("rating", Value.num 5)]

/-- Third sample course (rating 5, later of the two 5-rated ones). -/
def sampleC : Course := [("id", Value.str "c"), ("rating", Value.num 5)]

/-- Fourth sample course (rating 1). -/
def sampleD : Course := [("id", Value.str "d"), ("rating", Value.num 1)]

/-- A well-formed upstream Coursera record, for concrete instantiations. -/
def sampleCourseraUpstream : Value :=
  .dict [("name", .str "ML"), ("description", .str "Intro"),
         ("slug", .str "ml"), ("id", .str "c1")]

/-- The normalized course the Coursera adapter produces from
`sampleCourseraUpstream`. -/
def sampleCourseraCourse : Course :=
  [("provider", .str "Coursera"),
   ("title", .str "ML"),
   ("description", .str "Intro"),
   ("url", .str "https://www.coursera.org/learn/ml"),
   ("image_url", .null),
   ("duration", .str "Flexible"),
   ("language", .str "English"),
   ("certificate", .bool false),
   ("start_date", .str "Self-paced"),
   ("price", .str "Free to audit, Certificate available"),
   ("provider_id", .str "c1")]

theorem traverseOpt_cons_some {f : α → Option β} {a : α} {as : List α} {r : List β}
    (h : traverseOpt f (a :: as) = some r) :
    ∃ b bs, f a = some b ∧ traverseOpt f as = some bs ∧ r = b :: bs := by
  simp only [traverseOpt] at h
  split at h
  · exact absurd h (by simp)
  · rename_i b hb
    split at h
    · exact absurd h (by simp)
    · rename_i bs hbs
      exact ⟨b, bs, hb, hbs, (Option.some_inj.mp h).symm⟩

theorem traverseOpt_isSome {f : α → Option β} {l : List α}
    (h : ∀ a ∈ l, (f a).isSome) : (traverseOpt f l).isSome := by
  induction l with
  | nil => simp [traverseOpt]
  | cons a as ih =>
    simp only [traverseOpt]
    obtain ⟨b, hb⟩ := Option.isSome_iff_exists.mp (h a (by simp))
    rw [hb]
    obtain ⟨bs, hbs⟩ := Option.isSome_iff_exists.mp (ih fun x hx => h x (by simp [hx]))
    rw [hbs]
    simp

theorem traverseEx_ok_mem {ε : Type} {f : α → Except ε β} {l : List α} {r : List β}
    (h : traverseEx f l = .ok r) {c : β} (hc : c ∈ r) : ∃ a ∈ l, f a = .ok c := by
  induction l generalizing r with
  | nil =>
    simp only [traverseEx] at h
    cases h
    simp at hc
  | cons a as ih =>
    simp only [traverseEx] at h
    split at h
    · exact absurd h (by simp)
    · rename_i b hb
      split at h
      · exact absurd h (by simp)
      · rename_i bs hbs
        cases h
        rcases List.mem_cons.mp hc with rfl | hc'
        · exact ⟨a, by simp, hb⟩
        · obtain ⟨a', ha', hfa'⟩ := ih hbs hc'
          exact ⟨a', by simp [ha'], hfa'⟩

theorem insDesc_perm (key : α → ℚ) (x : α) (l : List α) :
    (insDesc key x l).Perm (x :: l) := by
  induction l with
  | nil => simp [insDesc]
  | cons y ys ih =>
    simp only [insDesc]
    split
    · exact List.Perm.refl _
    · exact (ih.cons y).trans (List.Perm.swap x y ys)

theorem insDesc_pairwise (key : α → ℚ) (x : α) {l : List α}
    (h : l.Pairwise (fun a b => key b ≤ key a)) :
    (insDesc key x l).Pairwise (fun a b => key b ≤ key a) := by
  induction l with
  | nil => simp [insDesc]
  | cons y ys ih =>
    rw [List.pairwise_cons] at h
    obtain ⟨hy, hys⟩ := h
    simp only [insDesc]
    split
    · rename_i hle
      refine List.Pairwise.cons ?_ (List.Pairwise.cons hy hys)
      intro z hz
      rcases List.mem_cons.mp hz with rfl | hz'
      · exact hle
      · exact le_trans (hy z hz') hle
    · rename_i hgt
      push_neg at hgt
      refine List.Pairwise.cons ?_ (ih hys)
      intro z hz
      rw [(insDesc_perm key x ys).mem_iff] at hz
      rcases List.mem_cons.mp hz with rfl | hz'
      · exact le_of_lt hgt
      · exact hy z hz'

theorem insDesc_filter_eq (key : α → ℚ) (k : ℚ) (x : α) (l : List α) (hx : key x = k) :
    (insDesc key x l).filter (fun a => decide (key a = k))
      = x :: l.filter (fun a => decide (key a = k)) := by
  induction l with
  | nil => simp [insDesc, hx]
  | cons y ys ih =>
    simp only [insDesc]
    split
    · simp [List.filter_cons, hx]
    · rename_i hgt
      push_neg at hgt
      have hy : ¬(key y = k) := by rw [← hx]; exact ne_of_gt hgt
      simp [List.filter_cons, hy, ih]

theorem insDesc_filter_ne (key : α → ℚ) (k : ℚ) (x : α) (l : List α) (hx : ¬(key x = k)) :
    (insDesc key x l).filter (fun a => decide (key a = k))
      = l.filter (fun a => decide (key a = k)) := by
  induction l with
  | nil => simp [insDesc, hx]
  | cons y ys ih =>
    simp only [insDesc]
    split
    · simp [List.filter_cons, hx]
    · simp [List.filter_cons, ih]

theorem insSortDesc_pairwise (key : α → ℚ) (l : List α) :
    (insSortDesc key l).Pairwise (fun a b => key b ≤ key a) := by
  induction l with
  | nil => simp [insSortDesc]
  | cons x xs ih => exact insDesc_pairwise key x ih

theorem insSortDesc_perm (key : α → ℚ) (l : List α) : (insSortDesc key l).Perm l := by
  induction l with
  | nil => simp [insSortDesc]
  | cons x xs ih => exact (insDesc_perm key x _).trans (ih.cons x)

theorem insSortDesc_filter (key : α → ℚ) (k : ℚ) (l : List α) :
    (insSortDesc key l).filter (fun a => decide (key a = k))
      = l.filter (fun a => decide (key a = k)) := by
  induction l with
  | nil => rfl
  | cons x xs ih =>
    simp only [insSortDesc]
    by_cases hx : key x = k
    · rw [insDesc_filter_eq key k x _ hx, ih, List.filter_cons]
      simp [hx]
    · rw [insDesc_filter_ne key k x _ hx, ih, List.filter_cons]
      simp [hx]

theorem mem_foldl_filter (p : α → β → Bool) (fl : List β) (c : α) :
    ∀ cs : List α,
      c ∈ fl.foldl (fun acc kv => acc.filter (fun x => p x kv)) cs ↔
        c ∈ cs ∧ ∀ kv ∈ fl, p c kv = true := by
  induction fl with
  | nil => intro cs; simp
  | cons kv fl ih =>
    intro cs
    simp only [List.foldl_cons]
    rw [ih]
    simp only [List.mem_filter, List.forall_mem_cons]
    tauto

theorem sortCourses_some_inv {courses result : List Course} {sb : String}
    (hne : sb.isEmpty = false)
    (h : sortCourses courses (some sb) = some result) :
    result = insSortDesc (keyOf sb) courses := by
  simp only [sortCourses, hne, Bool.false_eq_true, if_false] at h
  split at h
  · exact absurd h (by simp)
  · exact (Option.some_inj.mp h).symm

theorem getSortKey_price_isSome (c : Course) : (getSortKey "price" c).isSome := rfl

theorem sortCourses_price_isSome (cs : List Course) :
    (sortCourses cs (some "price")).isSome := by
  simp only [sortCourses, show ("price".isEmpty) = false from rfl, Bool.false_eq_true, if_false]
  obtain ⟨l, hl⟩ := Option.isSome_iff_exists.mp
    (traverseOpt_isSome (fun c _ => getSortKey_price_isSome c))
  rw [hl]
  rfl

theorem processBucket_of_error (sortBy : Option String)
    (filters : Option (List (String × Value))) (priceRange : Option (ℚ × ℚ))
    (b : Bucket) (h : b.error.isSome) :
    processBucket sortBy filters priceRange b = some b := by
  obtain ⟨e, he⟩ := Option.isSome_iff_exists.mp h
  simp [processBucket, he]

theorem processBucket_error_eq {sortBy : Option String}
    {filters : Option (List (String × Value))} {priceRange : Option (ℚ × ℚ)}
    {b b' : Bucket} (h : processBucket sortBy filters priceRange b = some b') :
    b'.error = b.error := by
  unfold processBucket at h
  split at h
  · rename_i e he
    rw [Option.some_inj.mp h]
  · rename_i he
    split at h
    · exact absurd h (by simp)
    · rw [← Option.some_inj.mp h, he]

theorem searchAllProviders_inv {skills : List String} {limit : Int}
    {sortBy : Option String} {filters : Option (List (String × Value))}
    {priceRange : Option (ℚ × ℚ)} {cr ur er : Except String (List Course)}
    {res : List (String × Bucket)}
    (h : searchAllProviders skills limit sortBy filters priceRange cr ur er = some res) :
    ∃ b₁ b₂ b₃ : Bucket,
      processBucket sortBy filters priceRange (mkBucket cr) = some b₁ ∧
      processBucket sortBy filters priceRange (mkBucket ur) = some b₂ ∧
      processBucket sortBy filters priceRange (mkBucket er) = some b₃ ∧
      res = [("coursera", b₁), ("udemy", b₂), ("edx", b₃)] := by
  unfold searchAllProviders at h
  obtain ⟨p₁, bs₁, hp₁, hrest₁, hres⟩ := traverseOpt_cons_some h
  obtain ⟨p₂, bs₂, hp₂, hrest₂, hbs₁⟩ := traverseOpt_cons_some hrest₁
  obtain ⟨p₃, bs₃, hp₃, hrest₃, hbs₂⟩ := traverseOpt_cons_some hrest₂
  have hbs₃ : bs₃ = [] := by
    simp only [traverseOpt] at hrest₃
    exact (Option.some_inj.mp hrest₃).symm
  obtain ⟨b₁, hb₁, hpb₁⟩ := Option.map_eq_some'.mp hp₁
  obtain ⟨b₂, hb₂, hpb₂⟩ := Option.map_eq_some'.mp hp₂
  obtain ⟨b₃, hb₃, hpb₃⟩ := Option.map_eq_some'.mp hp₃
  refine ⟨b₁, b₂, b₃, hb₁, hb₂, hb₃, ?_⟩
  rw [hres, hbs₁, hbs₂, hbs₃, ← hpb₁, ← hpb₂, ← hpb₃]

theorem mem_applyFilters {courses : List Course} {fl : List (String × Value)}
    {pr : Option (ℚ × ℚ)} {c : Course}
    (h : c ∈ applyFilters courses (some fl) pr) :
    c ∈ courses ∧ (∀ kv ∈ fl, matchesFilter c kv = true) ∧
      ∀ mn mx : ℚ, pr = some (mn, mx) → priceInRange c mn mx = true := by
  unfold applyFilters at h
  split at h
  · rename_i hcond
    obtain ⟨hf, hp⟩ := hcond
    have hfl : fl = [] := by
      cases fl with
      | nil => rfl
      | cons x xs => simp [filtersTruthy] at hf
    subst hfl
    exact ⟨h, by simp, fun mn mx hpr => by rw [hp] at hpr; cases hpr⟩
  · cases pr with
    | none =>
      replace h : c ∈ applyEqFilters fl courses := h
      rw [applyEqFilters, mem_foldl_filter] at h
      exact ⟨h.1, h.2, fun mn mx hpr => by cases hpr⟩
    | some p =>
      obtain ⟨mn, mx⟩ := p
      replace h : c ∈ (applyEqFilters fl courses).filter
          (fun c => priceInRange c mn mx) := h
      rw [List.mem_filter, applyEqFilters, mem_foldl_filter] at h
      refine ⟨h.1.1, h.1.2, fun mn' mx' hpr => ?_⟩
      injection hpr with hpr'
      injection hpr' with ha hb
      subst ha
      subst hb
      exact h.2

theorem processCourseraRecord_ok {v : Value} {c : Course}
    (h : processCourseraRecord v = .ok c) :
    ∃ (course : List (String × Value)) (name description slug language cid : Value),
      c = [("provider", Value.str "Coursera"),
           ("title", name),
           ("description", description),
           ("url", .str ("https://www.coursera.org/learn/" ++ pyStr slug)),
           ("image_url", (courseGet course "partnerLogo").getD .null),
           ("duration", (courseGet course "workload").getD (.str "Flexible")),
           ("language", language),
           ("certificate", .bool (truthy ((courseGet course "certificates").getD .null))),
           ("start_date", (courseGet course "startDate").getD (.str "Self-paced")),
           ("price", .str "Free to audit, Certificate available"),
           ("provider_id", cid)] := by
  unfold processCourseraRecord at h
  split at h
  · exact absurd h (by simp)
  rename_i course hcourse
  split at h
  · exact absurd h (by simp)
  rename_i name hname
  split at h
  · exact absurd h (by simp)
  rename_i description hdesc
  split at h
  · exact absurd h (by simp)
  rename_i slug hslug
  split at h
  · exact absurd h (by simp)
  rename_i language hlang
  split at h
  · exact absurd h (by simp)
  rename_i cid hcid
  cases h
  exact ⟨course, name, description, slug, language, cid, rfl⟩

theorem processUdemyRecord_ok {v : Value} {c : Course}
    (h : processUdemyRecord v = .ok c) :
    ∃ (title headline url image price rating reviews cid : Value),
      c = [("provider", Value.str "Udemy"),
           ("title", title),
           ("description", headline),
           ("url", url),
           ("image_url", image),
           ("price", .str ("$" ++ pyStr price)),
           ("rating", rating),
           ("reviews", reviews),
           ("provider_id", cid)] := by
  unfold processUdemyRecord at h
  split at h
  · exact absurd h (by simp)
  rename_i course hcourse
  split at h
  · exact absurd h (by simp)
  rename_i title htitle
  split at h
  · exact absurd h (by simp)
  rename_i headline hheadline
  split at h
  · exact absurd h (by simp)
  rename_i url hurl
  split at h
  · exact absurd h (by simp)
  rename_i image himage
  split at h
  · exact absurd h (by simp)
  rename_i price hprice
  split at h
  · exact absurd h (by simp)
  rename_i rating hrating
  split at h
  · exact absurd h (by simp)
  rename_i reviews hreviews
  split at h
  · exact absurd h (by simp)
  rename_i cid hcid
  cases h
  exact ⟨title, headline, url, image, price, rating, reviews, cid, rfl⟩

theorem processEdxRecord_ok {v : Value} {c : Course}
    (h : processEdxRecord v = .ok c) :
    ∃ (course : List (String × Value)) (title description url image cid : Value),
      c = [("provider", Value.str "EdX"),
           ("title", title),
           ("description", description),
           ("url", url),
           ("image_url", image),
           ("price", (courseGet course "price").getD
              (.str "Free to audit, Certificate available")),
           ("start_date", (courseGet course "start").getD (.str "Self-paced")),
           ("pacing", (courseGet course "pacing_type").getD (.str "Self-paced")),
           ("provider_id", cid)] := by
  unfold processEdxRecord at h
  split at h
  · exact absurd h (by simp)
  rename_i course hcourse
  split at h
  · exact absurd h (by simp)
  rename_i title htitle
  split at h
  · exact absurd h (by simp)
  rename_i description hdesc
  split at h
  · exact absurd h (by simp)
  rename_i url hurl
  split at h
  · exact absurd h (by simp)
  rename_i image himage
  split at h
  · exact absurd h (by simp)
  rename_i cid hcid
  cases h
  exact ⟨course, title, description, url, image, cid, rfl⟩

theorem getNumericPrice_free :
    getNumericPrice (.str "Free to audit, Certificate available") = 0 := by decide

theorem processBucket_isSome_of_sort (sortBy : Option String)
    (hsort : ∀ cs : List Course, (sortCourses cs sortBy).isSome)
    (filters : Option (List (String × Value))) (priceRange : Option (ℚ × ℚ))
    (b : Bucket) : (processBucket sortBy filters priceRange b).isSome := by
  simp only [processBucket]
  split
  · rfl
  · obtain ⟨l, hl⟩ := Option.isSome_iff_exists.mp
      (hsort (applyFilters b.courses filters priceRange))
    rw [hl]
    rfl

/-- C2 (counterexample): the claim says `derivePrice("$49.99") == 49.99`;
`_get_numeric_price` concatenates every digit character of the string, so
it actually returns `4999.0`. -/
theorem c2_counterexample :
    getNumericPrice (.str "$49.99") = 4999 ∧
    getNumericPrice (.str "$49.99") ≠ (4999 / 100 : ℚ) := by
  have h1 : getNumericPrice (.str "$49.99") = 4999 := by decide
  refine ⟨h1, ?_⟩
  rw [h1]
  norm_num

/-- C2 (amended): `_get_numeric_price` returns an already-numeric input
unchanged; on a string it concatenates every digit character (in order)
and parses the concatenation as a decimal integer, so
`derivePrice("$49.99") == 4999.0`; a string with no digit characters
yields `0.0` (`derivePrice("Free to audit") == 0.0`). -/
theorem c2_price_derivation :
    (∀ q : ℚ, getNumericPrice (.num q) = q) ∧
    getNumericPrice (.str "$49.99") = 4999 ∧
    (∀ s : String, s.data.all (fun c => !c.isDigit) = true →
      getNumericPrice (.str s) = 0) ∧
    getNumericPrice (.str "Free to audit") = 0 := by
  refine ⟨fun q => rfl, by decide, ?_, by decide⟩
  intro s hs
  have hnil : s.data.filter Char.isDigit = [] := by
    rw [List.filter_eq_nil_iff]
    intro c hc
    simpa using List.all_eq_true.mp hs c hc
  simp [getNumericPrice, hnil]

/-- C2 (witness): the no-digit clause at `"Free to audit"`. -/
theorem c2_witness :
    ("Free to audit".data.all (fun c => !c.isDigit) = true) ∧
    getNumericPrice (.str "Free to audit") = 0 :=
  ⟨by decide, c2_price_derivation.2.2.1 "Free to audit" (by decide)⟩

/-- C3 (counterexample): a malformed request — empty `skills`, zero
`limit_per_provider` — is not rejected: `search_all_providers` consumes
the provider outcomes and returns the ordinary complete per-provider map,
with no aggregate-level validation error. -/
theorem c3_counterexample :
    searchAllProviders [] 0 none none none
        (.ok [[("title", Value.str "t")]]) (.error "udemy down") (.error "edx down")
      = some [("coursera", ⟨none, [[("title", Value.str "t")]]⟩),
              ("udemy", ⟨some "udemy down", []⟩),
              ("edx", ⟨some "edx down", []⟩)] := rfl

/-- C3 (amended): `search_all_providers` performs no request validation
at all: the `skills` and `limit_per_provider` arguments never influence
the outcome processing, so an empty skills list or a non-positive limit
is dispatched and processed like any other request, and no
aggregate-level validation error path exists. -/
theorem c3_no_validation (skills skills' : List String) (limit limit' : Int)
    (sortBy : Option String) (filters : Option (List (String × Value)))
    (priceRange : Option (ℚ × ℚ)) (cr ur er : Except String (List Course)) :
    searchAllProviders skills limit sortBy filters priceRange cr ur er
      = searchAllProviders skills' limit' sortBy filters priceRange cr ur er := rfl

/-- C4 (counterexample): the filter/sort stage can raise: a course whose
`rating` field holds the non-numeric string `"high"` makes
`float(course.get('rating', 0))` raise `ValueError` inside
`_sort_courses` (modelled as `none`) instead of being assigned key 0. -/
theorem c4_counterexample :
    sortCourses [[("rating", Value.str "high")]] (some "rating") = none := rfl

/-- C4 (amended): the filter stage never raises — a course whose filter
field is absent compares as `None`, hence matches no filter value other
than `None` itself; the sort stage assigns key 0 to a course whose sort
field is absent and never raises when sorting by `price`, but a present
non-numeric `rating` or `reviews` value raises a conversion error that
crashes the stage. -/
theorem c4_stage_safety :
    (∀ (c : Course) (k : String) (v : Value), courseGet c k = none →
      matchesFilter c (k, v) = Value.beq .null v) ∧
    (∀ c : Course, courseGet c "rating" = none → getSortKey "rating" c = some 0) ∧
    (∀ c : Course, courseGet c "reviews" = none → getSortKey "reviews" c = some 0) ∧
    (∀ c : Course, courseGet c "price" = none → getSortKey "price" c = some 0) ∧
    (∀ (courses : List Course) (fl : Option (List (String × Value)))
        (pr : Option (ℚ × ℚ)),
      (sortCourses (applyFilters courses fl pr) (some "price")).isSome) := by
  refine ⟨?_, ?_, ?_, ?_, fun courses fl pr => sortCourses_price_isSome _⟩
  · intro c k v h
    rw [matchesFilter]
    rw [h]
    rfl
  · intro c h
    rw [getSortKey]
    rw [h]
    rfl
  · intro c h
    rw [getSortKey]
    rw [h]
    rfl
  · intro c h
    rw [getSortKey]
    rw [h]
    rfl

/-- C4 (witness): a course lacking a `rating` field sorts with key 0, and
the price sort of a filtered list returns. -/
theorem c4_witness :
    (courseGet [("title", Value.str "t")] "rating" = none) ∧
    getSortKey "rating" [("title", Value.str "t")] = some 0 ∧
    (sortCourses (applyFilters [[("title", Value.str "t")]] none none)
        (some "price")).isSome :=
  ⟨rfl, c4_stage_safety.2.1 _ rfl, c4_stage_safety.2.2.2.2 _ none none⟩

/-- C5: whenever `_sort_courses` returns (its key conversions all
succeed) for `sort_by` in price/rating/reviews, the result is ordered
descending by the selected key, is stable — the courses of any fixed key
keep their relative input order — and is a permutation of the input; an
absent `sort_by` returns the input order exactly. -/
theorem c5_sort_stable_descending (courses result : List Course) (sb : String)
    (hsb : sb ∈ (["price", "rating", "reviews"] : List String))
    (h : sortCourses courses (some sb) = some result) :
    (result.map (keyOf sb)).Sorted (· ≥ ·) ∧
    (∀ k : ℚ, result.filter (fun c => decide (keyOf sb c = k))
        = courses.filter (fun c => decide (keyOf sb c = k))) ∧
    result.Perm courses ∧
    (∀ cs : List Course, sortCourses cs none = some cs) := by
  have hne : sb.isEmpty = false := by
    simp only [List.mem_cons, List.not_mem_nil, or_false] at hsb
    rcases hsb with rfl | rfl | rfl <;> rfl
  have hres : result = insSortDesc (keyOf sb) courses := sortCourses_some_inv hne h
  subst hres
  refine ⟨?_, fun k => insSortDesc_filter _ _ _, insSortDesc_perm _ _, fun cs => rfl⟩
  rw [List.Sorted, List.pairwise_map]
  exact insSortDesc_pairwise _ _

/-- C5 (witness): ratings `[3, 5, 5, 1]` sort to `[5, 5, 3, 1]` with the
two 5-rated courses in their original relative order. -/
theorem c5_witness :
    ("rating" ∈ (["price", "rating", "reviews"] : List String)) ∧
    sortCourses [sampleA, sampleB, sampleC, sampleD] (some "rating")
      = some [sampleB, sampleC, sampleA, sampleD] ∧
    (([sampleB, sampleC, sampleA, sampleD].map (keyOf "rating")).Sorted (· ≥ ·)) ∧
    ([sampleB, sampleC, sampleA, sampleD].filter (fun c => decide (keyOf "rating" c = 5))
      = [sampleA, sampleB, sampleC, sampleD].filter (fun c => decide (keyOf "rating" c = 5))) ∧
    ([sampleB, sampleC, sampleA, sampleD].Perm [sampleA, sampleB, sampleC, sampleD]) ∧
    sortCourses [sampleA, sampleB, sampleC, sampleD] none
      = some [sampleA, sampleB, sampleC, sampleD] := by
  have hm : "rating" ∈ (["price", "rating", "reviews"] : List String) := by simp
  have h : sortCourses [sampleA, sampleB, sampleC, sampleD] (some "rating")
      = some [sampleB, sampleC, sampleA, sampleD] := by rfl
  obtain ⟨h₁, h₂, h₃, h₄⟩ := c5_sort_stable_descending _ _ _ hm h
  exact ⟨hm, h, h₁, h₂ 5, h₃, h₄ _⟩

/-- C6: filtering is conjunctive and order-independent — `_apply_filters`
with `{A, B}` equals filtering by `A` alone then by `B` alone (and equals
the `{B, A}` order); a course is retained only if it satisfies every
active equality filter and the price range; with both arguments absent
the list is returned unchanged. -/
theorem c6_filters_conjunctive (courses : List Course) (a b : String × Value)
    (fl : List (String × Value)) (pr : Option (ℚ × ℚ)) (c : Course)
    (h : c ∈ applyFilters courses (some fl) pr) :
    applyFilters courses (some [a, b]) none
        = applyFilters (applyFilters courses (some [a]) none) (some [b]) none ∧
    applyFilters courses (some [a, b]) none
        = applyFilters courses (some [b, a]) none ∧
    applyFilters courses none none = courses ∧
    c ∈ courses ∧ (∀ kv ∈ fl, matchesFilter c kv = true) ∧
    (∀ mn mx : ℚ, pr = some (mn, mx) → priceInRange c mn mx = true) := by
  obtain ⟨h₁, h₂, h₃⟩ := mem_applyFilters h
  refine ⟨rfl, ?_, rfl, h₁, h₂, h₃⟩
  show (courses.filter fun c => matchesFilter c a).filter (fun c => matchesFilter c b)
      = (courses.filter fun c => matchesFilter c b).filter (fun c => matchesFilter c a)
  rw [List.filter_filter, List.filter_filter]
  exact List.filter_congr (fun x _ => by rw [Bool.and_comm])

/-- C6 (witness): one English course against a language filter and a
certificate filter. -/
theorem c6_witness :
    (([("language", Value.str "English")] : Course)
        ∈ applyFilters [[("language", Value.str "English")]]
            (some [("language", Value.str "English")]) none) ∧
    applyFilters [[("language", Value.str "English")]]
        (some [("language", Value.str "English"), ("certificate", Value.bool true)]) none
      = applyFilters
          (applyFilters [[("language", Value.str "English")]]
            (some [("language", Value.str "English")]) none)
          (some [("certificate", Value.bool true)]) none ∧
    applyFilters [[("language", Value.str "English")]] none none
      = [[("language", Value.str "English")]] ∧
    (∀ kv ∈ [("language", Value.str "English")],
        matchesFilter [("language", Value.str "English")] kv = true) := by
  have hmem : ([("language", Value.str "English")] : Course)
      ∈ applyFilters [[("language", Value.str "English")]]
          (some [("language", Value.str "English")]) none := List.Mem.head _
  obtain ⟨h₁, _, h₃, _, h₅, _⟩ := c6_filters_conjunctive
    [[("language", Value.str "English")]]
    ("language", Value.str "English") ("certificate", Value.bool true)
    [("language", Value.str "English")] none _ hmem
  exact ⟨hmem, h₁, h₃, h₅⟩

/-- C9: every course the Coursera adapter produces carries the literal
price string `"Free to audit, Certificate available"`, whose derived
numeric price is 0; hence a price range with positive minimum excludes
every Coursera course and a range with `min <= 0 <= max` retains them
all. -/
theorem c9_coursera_price (items : List Value) (res : List Course)
    (h : processCourseraResults items = .ok res) :
    (∀ c ∈ res, courseGet c "price"
        = some (.str "Free to audit, Certificate available")) ∧
    (∀ mn mx : ℚ, 0 < mn → applyFilters res none (some (mn, mx)) = []) ∧
    (∀ mn mx : ℚ, mn ≤ 0 → 0 ≤ mx → applyFilters res none (some (mn, mx)) = res) := by
  have hprice : ∀ c ∈ res, courseGet c "price"
      = some (.str "Free to audit, Certificate available") := by
    intro c hc
    obtain ⟨a, _, hfa⟩ := traverseEx_ok_mem h hc
    obtain ⟨course, name, description, slug, language, cid, rfl⟩ :=
      processCourseraRecord_ok hfa
    rfl
  have hnum : ∀ c ∈ res,
      getNumericPrice ((courseGet c "price").getD (.num 0)) = 0 := by
    intro c hc
    rw [hprice c hc]
    exact getNumericPrice_free
  refine ⟨hprice, ?_, ?_⟩
  · intro mn mx hmn
    show res.filter (fun c => priceInRange c mn mx) = []
    rw [List.filter_eq_nil_iff]
    intro c hc
    simp only [priceInRange, hnum c hc]
    simp only [Bool.and_eq_true, decide_eq_true_eq]
    intro hcon
    exact absurd hcon.1 (not_le.mpr hmn)
  · intro mn mx hmn hmx
    show res.filter (fun c => priceInRange c mn mx) = res
    rw [List.filter_eq_self]
    intro c hc
    simp only [priceInRange, hnum c hc]
    simp [hmn, hmx]

/-- C9 (witness): the sample Coursera record. -/
theorem c9_witness :
    processCourseraResults [sampleCourseraUpstream] = .ok [sampleCourseraCourse] ∧
    courseGet sampleCourseraCourse "price"
      = some (.str "Free to audit, Certificate available") ∧
    applyFilters [sampleCourseraCourse] none (some (1, 50)) = [] ∧
    applyFilters [sampleCourseraCourse] none (some (0, 50)) = [sampleCourseraCourse] := by
  have h : processCourseraResults [sampleCourseraUpstream]
      = .ok [sampleCourseraCourse] := rfl
  obtain ⟨h₁, h₂, h₃⟩ := c9_coursera_price _ _ h
  exact ⟨h, h₁ _ (List.Mem.head _), h₂ 1 50 (by norm_num), h₃ 0 50 le_rfl (by norm_num)⟩

/-- C7 (counterexample): an empty upstream record makes the Coursera
mapping raise `KeyError('name')` — required fields are read by direct
subscript, not replaced by the empty string. -/
theorem c7_counterexample :
    processCourseraResults [Value.dict []] = .error (.keyError "name") := rfl

/-- C7 (amended): each adapter reads its required upstream fields by
direct subscript, so a malformed record raises `KeyError` instead of
defaulting to the empty string; whenever the mapping does return, every
produced course has its `title` and `url` keys present. -/
theorem c7_required_fields :
    (∀ (items : List Value) (res : List Course),
      processCourseraResults items = .ok res →
      ∀ c ∈ res, (courseGet c "title").isSome ∧ (courseGet c "url").isSome) ∧
    (∀ (items : List Value) (res : List Course),
      processUdemyResults items = .ok res →
      ∀ c ∈ res, (courseGet c "title").isSome ∧ (courseGet c "url").isSome) ∧
    (∀ (items : List Value) (res : List Course),
      processEdxResults items = .ok res →
      ∀ c ∈ res, (courseGet c "title").isSome ∧ (courseGet c "url").isSome) := by
  refine ⟨?_, ?_, ?_⟩
  · intro items res h c hc
    obtain ⟨a, _, hfa⟩ := traverseEx_ok_mem h hc
    obtain ⟨course, name, description, slug, language, cid, rfl⟩ :=
      processCourseraRecord_ok hfa
    exact ⟨rfl, rfl⟩
  · intro items res h c hc
    obtain ⟨a, _, hfa⟩ := traverseEx_ok_mem h hc
    obtain ⟨title, headline, url, image, price, rating, reviews, cid, rfl⟩ :=
      processUdemyRecord_ok hfa
    exact ⟨rfl, rfl⟩
  · intro items res h c hc
    obtain ⟨a, _, hfa⟩ := traverseEx_ok_mem h hc
    obtain ⟨course, title, description, url, image, cid, rfl⟩ :=
      processEdxRecord_ok hfa
    exact ⟨rfl, rfl⟩

/-- C7 (witness): the sample Coursera record maps to a course whose
`title` and `url` are present. -/
theorem c7_witness :
    processCourseraResults [sampleCourseraUpstream] = .ok [sampleCourseraCourse] ∧
    (courseGet sampleCourseraCourse "title").isSome ∧
    (courseGet sampleCourseraCourse "url").isSome := by
  have h : processCourseraResults [sampleCourseraUpstream]
      = .ok [sampleCourseraCourse] := rfl
  obtain ⟨ht, hu⟩ := c7_required_fields.1 _ _ h _ (List.Mem.head _)
  exact ⟨h, ht, hu⟩

/-- C8 (counterexample): a 401 response does not fail with an
authentication error — the adapter's `search_courses` never routes
through `_make_request`, so the call succeeds on any status whose body
parses. -/
theorem c8_counterexample :
    courseraSearchCourses ["python"] 10
        (.response 401 (some (.dict [("elements", .list [])]))) = .ok [] := rfl

/-- C8 (amended): `_make_request` classifies outcomes as: status 429 →
`RateLimitError`; any other status >= 400 — 401/403 included, no
distinct authentication error exists — → `APIError`; connectivity
failure → `ConnectionError`; undecodable success body → `APIError`.
The adapters' `search_courses` methods bypass `_make_request` entirely:
their result is independent of the response status. -/
theorem c8_error_taxonomy :
    (∀ m : String, makeRequest (.networkFailure m)
        = .error (.connectionError ("Connection error: " ++ m))) ∧
    (∀ body : Option Value, makeRequest (.response 429 body)
        = .error (.rateLimitError "Rate limit exceeded")) ∧
    (∀ (status : Nat) (body : Option Value), 400 ≤ status → status ≠ 429 →
      makeRequest (.response status body)
        = .error (.apiError ("API request failed with status " ++ toString status))) ∧
    (∀ (status : Nat) (v : Value), status < 400 →
      makeRequest (.response status (some v)) = .ok v) ∧
    (∀ status : Nat, status < 400 →
      makeRequest (.response status none)
        = .error (.apiError "Invalid JSON response")) ∧
    (∀ (skills : List String) (limit : Int) (status status' : Nat) (body : Option Value),
      courseraSearchCourses skills limit (.response status body)
          = courseraSearchCourses skills limit (.response status' body) ∧
      udemySearchCourses skills limit (.response status body)
          = udemySearchCourses skills limit (.response status' body) ∧
      edxSearchCourses skills limit (.response status body)
          = edxSearchCourses skills limit (.response status' body)) := by
  refine ⟨fun m => rfl, fun body => rfl, ?_, ?_, ?_,
    fun skills limit s s' body => ⟨rfl, rfl, rfl⟩⟩
  · intro status body h4 h429
    have h1 : (status == 429) = false := by
      rw [beq_eq_false_iff_ne]
      exact h429
    simp [makeRequest, h1, h4]
  · intro status v hlt
    have h1 : (status == 429) = false := by
      rw [beq_eq_false_iff_ne]
      omega
    simp [makeRequest, h1, not_le.mpr hlt]
  · intro status hlt
    have h1 : (status == 429) = false := by
      rw [beq_eq_false_iff_ne]
      omega
    simp [makeRequest, h1, not_le.mpr hlt]

/-- C8 (witness): concrete outcomes per classification, and status
independence of the Coursera search between 200 and 500. -/
theorem c8_witness :
    makeRequest (.networkFailure "refused")
      = .error (.connectionError ("Connection error: " ++ "refused")) ∧
    makeRequest (.response 429 none) = .error (.rateLimitError "Rate limit exceeded") ∧
    makeRequest (.response 401 none)
      = .error (.apiError ("API request failed with status " ++ toString 401)) ∧
    makeRequest (.response 200 (some .null)) = .ok .null ∧
    makeRequest (.response 200 none) = .error (.apiError "Invalid JSON response") ∧
    courseraSearchCourses ["python"] 10
        (.response 200 (some (.dict [("elements", .list [])])))
      = courseraSearchCourses ["python"] 10
          (.response 500 (some (.dict [("elements", .list [])]))) :=
  ⟨c8_error_taxonomy.1 "refused",
   c8_error_taxonomy.2.1 none,
   c8_error_taxonomy.2.2.1 401 none (by norm_num) (by norm_num),
   c8_error_taxonomy.2.2.2.1 200 .null (by norm_num),
   c8_error_taxonomy.2.2.2.2.1 200 (by norm_num),
   (c8_error_taxonomy.2.2.2.2.2 ["python"] 10 200 500
      (some (.dict [("elements", .list [])]))).1⟩

/-- C1 (counterexample): with a successful provider outcome whose course
holds a non-numeric rating and `sort_by='rating'`, the post-fetch sort
raises and the exception escapes `search_all_providers` — no mapping is
returned at all. -/
theorem c1_counterexample :
    searchAllProviders ["python"] 10 (some "rating") none none
        (.ok [[("rating", Value.str "high")]]) (.ok []) (.ok []) = none := rfl

/-- C1 (amended): whenever the post-fetch filter/sort stage does not
raise — always the case when `sort_by` is absent or `'price'` —
`search_all_providers` returns a mapping with exactly one entry per
configured provider in the order coursera, udemy, edx; a provider whose
call failed appears as `{error: message, courses: []}` and never as an
absent key or an escaping exception; a successful bucket whose course
data defeats the sort key conversion, however, makes the exception
escape the whole call. -/
theorem c1_complete_response (skills : List String) (limit : Int)
    (sortBy : Option String) (filters : Option (List (String × Value)))
    (priceRange : Option (ℚ × ℚ)) (cr ur er : Except String (List Course))
    (res : List (String × Bucket))
    (h : searchAllProviders skills limit sortBy filters priceRange cr ur er = some res) :
    res.map Prod.fst = ["coursera", "udemy", "edx"] ∧
    (∀ m, cr = .error m → ("coursera", Bucket.mk (some m) []) ∈ res) ∧
    (∀ m, ur = .error m → ("udemy", Bucket.mk (some m) []) ∈ res) ∧
    (∀ m, er = .error m → ("edx", Bucket.mk (some m) []) ∈ res) ∧
    (∀ cr' ur' er' : Except String (List Course),
      (searchAllProviders skills limit none filters priceRange cr' ur' er').isSome ∧
      (searchAllProviders skills limit (some "price") filters priceRange
          cr' ur' er').isSome) := by
  obtain ⟨b₁, b₂, b₃, hb₁, hb₂, hb₃, hres⟩ := searchAllProviders_inv h
  subst hres
  refine ⟨rfl, ?_, ?_, ?_, ?_⟩
  · intro m hm
    subst hm
    have he : processBucket sortBy filters priceRange (mkBucket (.error m))
        = some (Bucket.mk (some m) []) := rfl
    rw [Option.some_inj.mp (he.symm.trans hb₁)]
    exact List.Mem.head _
  · intro m hm
    subst hm
    have he : processBucket sortBy filters priceRange (mkBucket (.error m))
        = some (Bucket.mk (some m) []) := rfl
    rw [Option.some_inj.mp (he.symm.trans hb₂)]
    exact List.Mem.tail _ (List.Mem.head _)
  · intro m hm
    subst hm
    have he : processBucket sortBy filters priceRange (mkBucket (.error m))
        = some (Bucket.mk (some m) []) := rfl
    rw [Option.some_inj.mp (he.symm.trans hb₃)]
    exact List.Mem.tail _ (List.Mem.tail _ (List.Mem.head _))
  · intro cr' ur' er'
    constructor
    · apply traverseOpt_isSome
      intro nb _
      obtain ⟨bb, hbb⟩ := Option.isSome_iff_exists.mp
        (processBucket_isSome_of_sort none (fun cs => rfl) filters priceRange nb.2)
      rw [hbb]
      rfl
    · apply traverseOpt_isSome
      intro nb _
      obtain ⟨bb, hbb⟩ := Option.isSome_iff_exists.mp
        (processBucket_isSome_of_sort (some "price") sortCourses_price_isSome
          filters priceRange nb.2)
      rw [hbb]
      rfl

/-- C1 (witness): one timed-out provider and two successful ones. -/
theorem c1_witness :
    searchAllProviders ["python"] 10 none none none
        (.error "Request timed out") (.ok []) (.ok [])
      = some [("coursera", Bucket.mk (some "Request timed out") []),
              ("udemy", Bucket.mk none []),
              ("edx", Bucket.mk none [])] ∧
    ([("coursera", Bucket.mk (some "Request timed out") []),
      ("udemy", Bucket.mk none []),
      ("edx", Bucket.mk none [])].map Prod.fst = ["coursera", "udemy", "edx"]) ∧
    (("coursera", Bucket.mk (some "Request timed out") [])
      ∈ [("coursera", Bucket.mk (some "Request timed out") []),
         ("udemy", Bucket.mk none []),
         ("edx", Bucket.mk none [])]) ∧
    (searchAllProviders ["python"] 10 (some "price") none none
        (.ok [sampleB]) (.error "x") (.ok [])).isSome := by
  have h : searchAllProviders ["python"] 10 none none none
      (.error "Request timed out") (.ok []) (.ok [])
    = some [("coursera", Bucket.mk (some "Request timed out") []),
            ("udemy", Bucket.mk none []),
            ("edx", Bucket.mk none [])] := rfl
  obtain ⟨h₁, h₂, _, _, h₅⟩ :=
    c1_complete_response ["python"] 10 none none none _ _ _ _ h
  exact ⟨h, h₁, h₂ _ rfl, (h₅ (.ok [sampleB]) (.error "x") (.ok [])).2⟩

/-- C10: the filter/sort stage runs only on buckets whose error is
`None` — an error bucket passes through the post-fetch loop untouched as
`{error: message, courses: []}` — and in any returned response every
bucket with an error set has an empty course list. -/
theorem c10_error_buckets (sortBy : Option String)
    (filters : Option (List (String × Value))) (priceRange : Option (ℚ × ℚ)) :
    (∀ b : Bucket, b.error.isSome →
      processBucket sortBy filters priceRange b = some b) ∧
    (∀ (skills : List String) (limit : Int) (cr ur er : Except String (List Course))
        (res : List (String × Bucket)) (nb : String × Bucket),
      searchAllProviders skills limit sortBy filters priceRange cr ur er = some res →
      nb ∈ res → nb.2.error.isSome → nb.2.courses = []) := by
  refine ⟨fun b hb => processBucket_of_error _ _ _ b hb, ?_⟩
  intro skills limit cr ur er res nb h hmem herr
  obtain ⟨b₁, b₂, b₃, hb₁, hb₂, hb₃, hres⟩ := searchAllProviders_inv h
  subst hres
  have key : ∀ (o : Except String (List Course)) (b : Bucket),
      processBucket sortBy filters priceRange (mkBucket o) = some b →
      b.error.isSome → b.courses = [] := by
    intro o b hpb hberr
    cases o with
    | error m =>
      have he : processBucket sortBy filters priceRange (mkBucket (.error m))
          = some (Bucket.mk (some m) []) := rfl
      rw [(Option.some_inj.mp (he.symm.trans hpb)).symm]
    | ok cs =>
      have herr2 : b.error = (mkBucket (.ok cs)).error := processBucket_error_eq hpb
      rw [herr2] at hberr
      exact absurd hberr (by simp [mkBucket])
  rcases List.mem_cons.mp hmem with rfl | hmem'
  · exact key cr b₁ hb₁ herr
  rcases List.mem_cons.mp hmem' with rfl | hmem''
  · exact key ur b₂ hb₂ herr
  rcases List.mem_cons.mp hmem'' with rfl | hmem'''
  · exact key er b₃ hb₃ herr
  · simp at hmem'''

/-- C10 (witness): an error bucket passes through `processBucket`
unchanged, and a concrete aggregated response's error bucket has empty
courses. -/
theorem c10_witness :
    processBucket none none none (Bucket.mk (some "boom") [sampleA])
      = some (Bucket.mk (some "boom") [sampleA]) ∧
    searchAllProviders [] 0 none none none (.error "down") (.ok [sampleA]) (.ok [])
      = some [("coursera", Bucket.mk (some "down") []),
              ("udemy", Bucket.mk none [sampleA]),
              ("edx", Bucket.mk none [])] ∧
    (("coursera", Bucket.mk (some "down") []) : String × Bucket).2.courses = [] := by
  have h : searchAllProviders [] 0 none none none
      (.error "down") (.ok [sampleA]) (.ok [])
    = some [("coursera", Bucket.mk (some "down") []),
            ("udemy", Bucket.mk none [sampleA]),
            ("edx", Bucket.mk none [])] := rfl
  exact ⟨(c10_error_buckets none none none).1 _ rfl, h,
    (c10_error_buckets none none none).2 [] 0 _ _ _ _ _ h (List.Mem.head _) rfl⟩

end CourseAgg
